import Mathlib

/-!
Verification development for the movieflix-analytics repository.

The embedding covers:
* the warehouse data model and the truncate-and-copy load of
  `src/etl/load_dw.sql` (tables `dw.movies`, `dw.users`, `dw.ratings`);
* the three mart views of `src/etl/marts.sql`
  (`mart.top10_by_genre`, `mart.avg_rating_by_age`, `mart.ratings_by_country`);
* the CRUD handlers and insight endpoints of `src/app/server.js`
  (tables `app_movies`, `app_ratings`).

SQL `numeric` values are embedded as exact rationals (`ℚ`); SQL result sets
are embedded as lists in a deterministic order (joins iterate the outer table
in list order, `group by` keeps keys in order of first appearance, `order by`
is a stable insertion sort by the view's sort key, `limit n` is `List.take n`).
-/

namespace MovieFlix

/-! ## Warehouse data model, from src/etl/load_dw.sql -/

/-- A row of `dw.movies` (`id int primary key, title text, year int, genre text, imdb_id text`). -/
structure Movie where
  id : Int
  title : String
  year : Int
  genre : String
  imdb_id : String
deriving DecidableEq, Repr

/-- A row of `dw.users` (`id int primary key, age_range text, country text`). -/
structure User where
  id : Int
  age_range : String
  country : String
deriving DecidableEq, Repr

/-- A row of `dw.ratings` (`user_id int, movie_id int, rating numeric(3,1), created_at timestamp`).
The timestamp is embedded as an opaque integer. -/
structure Rating where
  user_id : Int
  movie_id : Int
  rating : ℚ
  created_at : Int
deriving DecidableEq, Repr

/-- The contents of the three warehouse tables. -/
structure DW where
  movies : List Movie
  users : List User
  ratings : List Rating
deriving DecidableEq, Repr

/-- Parsed contents of the three input CSV files of the raw zone. -/
structure CSVs where
  movies : List Movie
  users : List User
  ratings : List Rating
deriving DecidableEq, Repr

/-- Line 25 of load_dw.sql: `truncate dw.movies; truncate dw.users; truncate dw.ratings;`. -/
def truncateAll (_dw : DW) : DW :=
  { movies := [], users := [], ratings := [] }

/-- Lines 27-29 of load_dw.sql: the three `copy dw.* from csv` statements,
which append the parsed CSV rows to the current table contents. -/
def copyAll (c : CSVs) (dw : DW) : DW :=
  { movies := dw.movies ++ c.movies
    users := dw.users ++ c.users
    ratings := dw.ratings ++ c.ratings }

/-- The table-mutating part of load_dw.sql: truncate all three warehouse
tables, then copy the three CSV files in full. -/
def load_dw (c : CSVs) (dw : DW) : DW :=
  copyAll c (truncateAll dw)

/-! ## ETL run orchestration -/

/-- The raw zone as seen by an ETL run: each CSV file is either readable
(`some rows`) or missing/unreadable (`none`). -/
structure RawZone where
  movies_csv : Option (List Movie)
  users_csv : Option (List User)
  ratings_csv : Option (List Rating)
deriving DecidableEq, Repr

/-- Errors that abort an ETL run. -/
inductive EtlErr where
  | missingFile
  | pkViolation
deriving DecidableEq, Repr

/-- The database state the two SQL scripts act on: the warehouse tables plus
whether marts.sql has ever run (before the first run the `mart` views do not
exist, so reading them is an undefined-relation error). -/
structure PgState where
  dw : DW
  martExists : Bool
deriving DecidableEq, Repr

/-- The database before any ETL run: empty warehouse, no mart views. -/
def initialPg : PgState :=
  { dw := { movies := [], users := [], ratings := [] }, martExists := false }

/-- Modelled from the spec: the ETL orchestrator that executes load_dw.sql and
marts.sql (the FastAPI `app.py` described in the README) is not under src/.
Per the spec's error taxonomy, a missing/unreadable input file is fatal and
aborts the run before any table is touched, and a constraint violation at
warehouse-write time (a duplicate primary key in `dw.movies` or `dw.users`)
aborts the run; a successful run executes load_dw.sql and then marts.sql,
which creates the mart views. -/
def runEtl (raw : RawZone) (pg : PgState) : Except EtlErr PgState :=
  match raw.movies_csv, raw.users_csv, raw.ratings_csv with
  | some ms, some us, some rs =>
    if (ms.map Movie.id).Nodup ∧ (us.map User.id).Nodup then
      .ok { dw := load_dw { movies := ms, users := us, ratings := rs } pg.dw
            martExists := true }
    else
      .error .pkViolation
  | _, _, _ => .error .missingFile

/-- The database state after an attempted ETL run: the new state on success,
the unchanged prior state on an aborted run. -/
def etlState (raw : RawZone) (pg : PgState) : PgState :=
  match runEtl raw pg with
  | .ok pg2 => pg2
  | .error _ => pg

/-! ## Generic relational building blocks used by the mart views -/

/-- Key list of a `group by`: the keys of the rows, in order of first
appearance, each key once. -/
def dedupKeys {K : Type} [DecidableEq K] (l : List K) : List K :=
  l.foldl (fun acc k => if k ∈ acc then acc else acc ++ [k]) []

/-- SQL `group by` with `avg` and `count(*)` aggregates: groups a list of
(key, numeric value) rows by key and returns, per key, the mean value and the
row count of the group. -/
def groupAgg {K : Type} [DecidableEq K] (rows : List (K × ℚ)) : List (K × ℚ × Nat) :=
  (dedupKeys (rows.map Prod.fst)).map fun k =>
    (k,
      ((rows.filter fun p => p.1 = k).map Prod.snd).sum /
        ((rows.filter fun p => p.1 = k).length : ℚ),
      (rows.filter fun p => p.1 = k).length)

/-- Insert an element into a list just before the first element it strictly
precedes; together with `sortBy` this is a stable insertion sort. -/
def insertSorted {α : Type} (lt : α → α → Bool) (a : α) : List α → List α
  | [] => [a]
  | b :: bs => if lt a b then a :: b :: bs else b :: insertSorted lt a bs

/-- SQL `order by`: a stable insertion sort by the strict comparison `lt`. -/
def sortBy {α : Type} (lt : α → α → Bool) (l : List α) : List α :=
  l.foldl (fun acc a => insertSorted lt a acc) []

/-! ## Mart views, from src/etl/marts.sql -/

/-- A result row of `mart.top10_by_genre`
(`genre, title, avg_rating, n_ratings`). -/
structure GenreRow where
  genre : String
  title : String
  avg_rating : ℚ
  n_ratings : Nat
deriving DecidableEq, Repr

/-- The join of lines 5-6 of marts.sql:
`from dw.movies m join dw.ratings r on r.movie_id = m.id`, keyed for the
`group by genre, title` of line 7. -/
def genreJoin (dw : DW) : List ((String × String) × ℚ) :=
  dw.movies.flatMap fun m =>
    (dw.ratings.filter fun r => r.movie_id = m.id).map fun r =>
      ((m.genre, m.title), r.rating)

/-- The sort key of line 8 of marts.sql: `order by genre, avg_rating desc`. -/
def genreLt (a b : GenreRow) : Bool :=
  decide (a.genre < b.genre) ||
    (decide (a.genre = b.genre) && decide (b.avg_rating < a.avg_rating))

/-- `mart.top10_by_genre` (lines 3-9 of marts.sql): join movies and ratings,
group by (genre, title) with mean rating and count, order by genre then
descending mean rating, `limit 10`. -/
def top10_by_genre (dw : DW) : List GenreRow :=
  (sortBy genreLt ((groupAgg (genreJoin dw)).map fun g =>
    { genre := g.1.1, title := g.1.2, avg_rating := g.2.1, n_ratings := g.2.2 })).take 10

/-- The same ordered aggregation as `top10_by_genre` but without the
`limit 10`; a spec-side definition used to state what the limit keeps. -/
def top_by_genre_all (dw : DW) : List GenreRow :=
  sortBy genreLt ((groupAgg (genreJoin dw)).map fun g =>
    { genre := g.1.1, title := g.1.2, avg_rating := g.2.1, n_ratings := g.2.2 })

/-- A result row of `mart.avg_rating_by_age` (`age_range, avg_rating, n_ratings`). -/
structure AgeRow where
  age_range : String
  avg_rating : ℚ
  n_ratings : Nat
deriving DecidableEq, Repr

/-- The join of lines 13-14 of marts.sql:
`from dw.users u join dw.ratings r on r.user_id = u.id`, keyed by `age_range`. -/
def ageJoin (dw : DW) : List (String × ℚ) :=
  dw.users.flatMap fun u =>
    (dw.ratings.filter fun r => r.user_id = u.id).map fun r =>
      (u.age_range, r.rating)

/-- The sort key of line 16 of marts.sql: `order by avg_rating desc`. -/
def ageLt (a b : AgeRow) : Bool :=
  decide (b.avg_rating < a.avg_rating)

/-- `mart.avg_rating_by_age` (lines 11-16 of marts.sql). -/
def avg_rating_by_age (dw : DW) : List AgeRow :=
  sortBy ageLt ((groupAgg (ageJoin dw)).map fun g =>
    { age_range := g.1, avg_rating := g.2.1, n_ratings := g.2.2 })

/-- A result row of `mart.ratings_by_country` (`country, n_ratings`). -/
structure CountryRow where
  country : String
  n_ratings : Nat
deriving DecidableEq, Repr

/-- The join of lines 20-21 of marts.sql, keyed by `country`. -/
def countryJoin (dw : DW) : List (String × ℚ) :=
  dw.users.flatMap fun u =>
    (dw.ratings.filter fun r => r.user_id = u.id).map fun r =>
      (u.country, r.rating)

/-- The sort key of line 23 of marts.sql: `order by n_ratings desc`. -/
def countryLt (a b : CountryRow) : Bool :=
  decide (b.n_ratings < a.n_ratings)

/-- `mart.ratings_by_country` (lines 18-23 of marts.sql). -/
def ratings_by_country (dw : DW) : List CountryRow :=
  sortBy countryLt ((groupAgg (countryJoin dw)).map fun g =>
    { country := g.1, n_ratings := g.2.2 })

/-! ## Insight endpoints, from src/app/server.js lines 125-140 -/

/-- A database error surfaced to an endpoint. -/
inductive SqlErr where
  | undefinedRelation
deriving DecidableEq, Repr

/-- GET /api/insights/top10: `select * from mart.top10_by_genre`. Before the
ETL has run the view does not exist, so the query raises an undefined-relation
error, which the handler propagates (it has no catch). -/
def getTop10 (pg : PgState) : Except SqlErr (List GenreRow) :=
  if pg.martExists then .ok (top10_by_genre pg.dw) else .error .undefinedRelation

/-- GET /api/insights/avg-by-age: `select * from mart.avg_rating_by_age`. -/
def getAvgByAge (pg : PgState) : Except SqlErr (List AgeRow) :=
  if pg.martExists then .ok (avg_rating_by_age pg.dw) else .error .undefinedRelation

/-- GET /api/insights/by-country: `select * from mart.ratings_by_country`. -/
def getByCountry (pg : PgState) : Except SqlErr (List CountryRow) :=
  if pg.martExists then .ok (ratings_by_country pg.dw) else .error .undefinedRelation

/-! ## CRUD application schema, from the bootstrap in src/app/server.js -/

/-- A row of `app_movies`
(`id serial primary key, title text not null, year int, genre text`). -/
structure AppMovie where
  id : Nat
  title : String
  year : Option Int
  genre : Option String
deriving DecidableEq, Repr

/-- A row of `app_ratings` (`id serial primary key,
movie_id int references app_movies(id) on delete cascade,
rating numeric(3,1) check (rating >= 0 and rating <= 10)`). -/
structure AppRating where
  id : Nat
  movie_id : Nat
  rating : ℚ
deriving DecidableEq, Repr

/-- The application schema state: the two tables plus the next value of each
serial id sequence. -/
structure AppDb where
  movies : List AppMovie
  ratings : List AppRating
  nextMovieId : Nat
  nextRatingId : Nat
deriving DecidableEq, Repr

/-- The application schema right after bootstrap: both tables empty. -/
def emptyAppDb : AppDb :=
  { movies := [], ratings := [], nextMovieId := 1, nextRatingId := 1 }

/-- A POST/PUT /movies request body: each field may be absent (or JSON null,
which reaches the SQL as the same NULL parameter). -/
structure MovieBody where
  title : Option String
  year : Option Int
  genre : Option String
deriving DecidableEq, Repr

/-- A POST /ratings request body. -/
structure RatingBody where
  movie_id : Option Nat
  rating : Option ℚ
deriving DecidableEq, Repr

/-- SQL `coalesce` on two nullable values: the first when it is non-null,
otherwise the second. -/
def coalesce {α : Type} : Option α → Option α → Option α
  | some v, _ => some v
  | none, y => y

/-- POST /movies (server.js lines 69-75): reject with 400 when `title` is
falsy (absent, null, or the empty string), otherwise insert the movie with
the next serial id and answer 201. The result is (HTTP status, new state). -/
def postMovie (b : MovieBody) (db : AppDb) : Nat × AppDb :=
  match b.title with
  | none => (400, db)
  | some t =>
    if t = "" then (400, db)
    else
      (201, { db with
        movies := db.movies ++ [{ id := db.nextMovieId, title := t, year := b.year, genre := b.genre }]
        nextMovieId := db.nextMovieId + 1 })

/-- The per-row effect of the PUT /movies/:id update statement:
`set title=coalesce($1,title), year=coalesce($2,year), genre=coalesce($3,genre)`
(the id column is not in the set list, so it is kept). -/
def applyMovieUpdate (b : MovieBody) (m : AppMovie) : AppMovie :=
  { id := m.id
    title := b.title.getD m.title
    year := coalesce b.year m.year
    genre := coalesce b.genre m.genre }

/-- PUT /movies/:id (server.js lines 78-85):
`update app_movies set title=coalesce($1,title), year=coalesce($2,year),
genre=coalesce($3,genre) where id=$4 returning *`; 404 when no row matched. -/
def putMovie (i : Nat) (b : MovieBody) (db : AppDb) : Nat × AppDb :=
  if db.movies.any fun m => m.id = i then
    (200, { db with
      movies := db.movies.map fun m => if m.id = i then applyMovieUpdate b m else m })
  else (404, db)

/-- DELETE /movies/:id (server.js lines 88-93): `delete from app_movies where
id=$1`; 404 when no row matched, else 204. The `on delete cascade` on
`app_ratings.movie_id` also deletes the ratings of the deleted movie. -/
def deleteMovie (i : Nat) (db : AppDb) : Nat × AppDb :=
  if db.movies.any fun m => m.id = i then
    (204, { db with
      movies := db.movies.filter fun m => m.id ≠ i
      ratings := db.ratings.filter fun r => r.movie_id ≠ i })
  else (404, db)

/-- POST /ratings (server.js lines 98-105): 400 when `movie_id` is falsy
(absent, null, or 0) or `rating` is null/absent; 404 when no `app_movies` row
has the given id; otherwise insert. The `check (rating >= 0 and rating <= 10)`
constraint of `app_ratings` makes the insert fail on an out-of-range rating,
leaving the table unchanged (the handler propagates the database error, here
rendered as status 500). -/
def postRating (b : RatingBody) (db : AppDb) : Nat × AppDb :=
  match b.movie_id, b.rating with
  | some mid, some q =>
    if mid = 0 then (400, db)
    else if db.movies.any fun m => m.id = mid then
      if 0 ≤ q ∧ q ≤ 10 then
        (201, { db with
          ratings := db.ratings ++ [{ id := db.nextRatingId, movie_id := mid, rating := q }]
          nextRatingId := db.nextRatingId + 1 })
      else (500, db)
    else (404, db)
  | _, _ => (400, db)

/-- Referential integrity of the application schema: every `app_ratings` row
references an existing `app_movies` row. -/
def RefIntegrity (db : AppDb) : Prop :=
  ∀ r ∈ db.ratings, ∃ m ∈ db.movies, m.id = r.movie_id

/-! ## Concrete inputs used by the witnesses and counterexamples -/

/-- A raw zone with all three CSV files readable. -/
def rawWith (ms : List Movie) (us : List User) (rs : List Rating) : RawZone :=
  { movies_csv := some ms, users_csv := some us, ratings_csv := some rs }

/-- A raw zone whose ratings file holds one rating of value 99, which fits
`numeric(3,1)` but is outside the 0-10 range. -/
def rawOutOfRange : RawZone :=
  { movies_csv := some []
    users_csv := some []
    ratings_csv := some [{ user_id := 1, movie_id := 1, rating := 99, created_at := 0 }] }

/-- A raw zone whose ratings file is missing. -/
def rawMissingRatings : RawZone :=
  { movies_csv := some [], users_csv := some [], ratings_csv := none }

/-- A nonempty warehouse state used to exercise abort-leaves-state-unchanged. -/
def pgPrior : PgState :=
  { dw := { movies := [{ id := 1, title := "A", year := 2000, genre := "X", imdb_id := "tt1" }]
            users := []
            ratings := [] }
    martExists := true }

/-- A one-movie, one-user, one-rating warehouse used by the C5 witness. -/
def dwOne : DW :=
  { movies := [{ id := 1, title := "A", year := 2000, genre := "X", imdb_id := "tt1" }]
    users := [{ id := 1, age_range := "18-25", country := "BR" }]
    ratings := [{ user_id := 1, movie_id := 1, rating := 8, created_at := 0 }] }

/-- The single result row of `top10_by_genre dwOne`. -/
def rowOne : GenreRow :=
  { genre := "X", title := "A", avg_rating := 8, n_ratings := 1 }

/-- The warehouse of the C7 acceptance example: two users in bracket "18-25"
rating 8 and 6, one user in bracket "26-35" rating 10. -/
def dwSeven : DW :=
  { movies := [{ id := 1, title := "A", year := 2000, genre := "X", imdb_id := "tt1" }]
    users := [{ id := 1, age_range := "18-25", country := "BR" },
              { id := 2, age_range := "18-25", country := "BR" },
              { id := 3, age_range := "26-35", country := "US" }]
    ratings := [{ user_id := 1, movie_id := 1, rating := 8, created_at := 0 },
                { user_id := 2, movie_id := 1, rating := 6, created_at := 0 },
                { user_id := 3, movie_id := 1, rating := 10, created_at := 0 }] }

/-- An application state with one movie (id 1) and one rating on it. -/
def dbOne : AppDb :=
  { movies := [{ id := 1, title := "A", year := some 2000, genre := some "X" }]
    ratings := [{ id := 1, movie_id := 1, rating := 8 }]
    nextMovieId := 2
    nextRatingId := 2 }

/-- An application state with two movies, used by the C10 witness. -/
def dbTwo : AppDb :=
  { movies := [{ id := 1, title := "A", year := some 2000, genre := some "X" },
               { id := 2, title := "B", year := none, genre := some "Y" }]
    ratings := []
    nextMovieId := 3
    nextRatingId := 1 }

/-! ## Helper lemmas about the relational building blocks -/

theorem mem_of_mem_insertSorted {α : Type} {lt : α → α → Bool} {a x : α} :
    ∀ {l : List α}, x ∈ insertSorted lt a l → x = a ∨ x ∈ l
  | [], h => by simpa [insertSorted] using h
  | b :: bs, h => by
    by_cases hc : lt a b
    · simpa [insertSorted, hc] using h
    · simp only [insertSorted, hc, if_false] at h
      rcases List.mem_cons.mp h with rfl | h2
      · exact Or.inr (List.mem_cons_self _ _)
      · rcases mem_of_mem_insertSorted h2 with h3 | h3
        · exact Or.inl h3
        · exact Or.inr (List.mem_cons_of_mem _ h3)

theorem mem_of_mem_sortBy_foldl {α : Type} {lt : α → α → Bool} {x : α} :
    ∀ (l acc : List α), x ∈ l.foldl (fun acc a => insertSorted lt a acc) acc →
      x ∈ acc ∨ x ∈ l
  | [], _, h => Or.inl h
  | a :: as, acc, h => by
    rcases mem_of_mem_sortBy_foldl as (insertSorted lt a acc) h with h2 | h2
    · rcases mem_of_mem_insertSorted h2 with h3 | h3
      · exact Or.inr (by simp [h3])
      · exact Or.inl h3
    · exact Or.inr (List.mem_cons_of_mem _ h2)

theorem mem_of_mem_sortBy {α : Type} {lt : α → α → Bool} {x : α} {l : List α}
    (h : x ∈ sortBy lt l) : x ∈ l := by
  rcases mem_of_mem_sortBy_foldl l [] h with h2 | h2
  · simp at h2
  · exact h2

theorem mem_of_mem_dedupKeys_foldl {K : Type} [DecidableEq K] {x : K} :
    ∀ (l acc : List K),
      x ∈ l.foldl (fun acc k => if k ∈ acc then acc else acc ++ [k]) acc →
      x ∈ acc ∨ x ∈ l
  | [], _, h => Or.inl h
  | k :: ks, acc, h => by
    rcases mem_of_mem_dedupKeys_foldl ks (if k ∈ acc then acc else acc ++ [k]) h with h2 | h2
    · by_cases hk : k ∈ acc
      · simp only [hk, if_true] at h2
        exact Or.inl h2
      · simp only [hk, if_false] at h2
        rcases List.mem_append.mp h2 with h3 | h3
        · exact Or.inl h3
        · simp only [List.mem_singleton] at h3
          exact Or.inr (by simp [h3])
    · exact Or.inr (List.mem_cons_of_mem _ h2)

theorem mem_of_mem_dedupKeys {K : Type} [DecidableEq K] {x : K} {l : List K}
    (h : x ∈ dedupKeys l) : x ∈ l := by
  rcases mem_of_mem_dedupKeys_foldl l [] h with h2 | h2
  · simp at h2
  · exact h2

theorem groupAgg_mem {K : Type} [DecidableEq K] {rows : List (K × ℚ)} {g : K × ℚ × Nat}
    (h : g ∈ groupAgg rows) : 0 < g.2.2 ∧ ∃ v : ℚ, (g.1, v) ∈ rows := by
  unfold groupAgg at h
  rcases List.mem_map.mp h with ⟨k, hk, rfl⟩
  have hk2 : k ∈ rows.map Prod.fst := mem_of_mem_dedupKeys hk
  rcases List.mem_map.mp hk2 with ⟨p, hp, rfl⟩
  refine ⟨?_, p.2, ?_⟩
  · have hpf : p ∈ rows.filter fun q => q.1 = p.1 :=
      List.mem_filter.mpr ⟨hp, by simp⟩
    have hlen : 0 < (rows.filter fun q => q.1 = p.1).length :=
      List.length_pos.mpr (List.ne_nil_of_mem hpf)
    simpa using hlen
  · simpa [Prod.mk.eta] using hp

theorem genreJoin_mem {dw : DW} {k : String × String} {v : ℚ}
    (h : (k, v) ∈ genreJoin dw) :
    ∃ m ∈ dw.movies, m.genre = k.1 ∧ m.title = k.2 ∧
      ∃ r ∈ dw.ratings, r.movie_id = m.id := by
  unfold genreJoin at h
  rcases List.mem_flatMap.mp h with ⟨m, hm, hmr⟩
  rcases List.mem_map.mp hmr with ⟨r, hr, heq⟩
  have hr2 := List.mem_filter.mp hr
  injection heq with h1 h2
  subst h1
  exact ⟨m, hm, rfl, rfl, r, hr2.1, of_decide_eq_true hr2.2⟩

theorem ageJoin_mem {dw : DW} {k : String} {v : ℚ}
    (h : (k, v) ∈ ageJoin dw) :
    ∃ u ∈ dw.users, u.age_range = k ∧ ∃ r ∈ dw.ratings, r.user_id = u.id := by
  unfold ageJoin at h
  rcases List.mem_flatMap.mp h with ⟨u, hu, hur⟩
  rcases List.mem_map.mp hur with ⟨r, hr, heq⟩
  have hr2 := List.mem_filter.mp hr
  injection heq with h1 h2
  subst h1
  exact ⟨u, hu, rfl, r, hr2.1, of_decide_eq_true hr2.2⟩

theorem countryJoin_mem {dw : DW} {k : String} {v : ℚ}
    (h : (k, v) ∈ countryJoin dw) :
    ∃ u ∈ dw.users, u.country = k ∧ ∃ r ∈ dw.ratings, r.user_id = u.id := by
  unfold countryJoin at h
  rcases List.mem_flatMap.mp h with ⟨u, hu, hur⟩
  rcases List.mem_map.mp hur with ⟨r, hr, heq⟩
  have hr2 := List.mem_filter.mp hr
  injection heq with h1 h2
  subst h1
  exact ⟨u, hu, rfl, r, hr2.1, of_decide_eq_true hr2.2⟩

/-! ## Claim theorems -/

/-- C1: `mart.top10_by_genre` groups the joined warehouse ratings by
(genre, title) with mean rating and count, orders by genre ascending then
mean rating descending, and applies a single global `limit 10`: for every
warehouse content the view is the first 10 rows of the full ordered grouping,
hence at most 10 rows in total across the whole aggregation, not 10 per
genre. -/
theorem C1_top10_global_limit (dw : DW) :
    top10_by_genre dw = (top_by_genre_all dw).take 10 ∧
    (top10_by_genre dw).length ≤ 10 := by
  refine ⟨rfl, ?_⟩
  simp only [top10_by_genre, List.length_take]
  omega

/-- C2: the warehouse load is idempotent: for every fixed raw zone, running
the ETL twice in sequence leaves the warehouse tables `dw.movies`, `dw.users`
and `dw.ratings` with exactly the contents of a single run, because each
successful run truncates all three tables before reloading them in full. -/
theorem C2_load_idempotent (raw : RawZone) (pg : PgState) :
    (etlState raw (etlState raw pg)).dw = (etlState raw pg).dw := by
  rcases raw with ⟨mc, uc, rc⟩
  cases mc with
  | none => cases uc <;> cases rc <;> simp [etlState, runEtl]
  | some ms =>
    cases uc with
    | none => cases rc <;> simp [etlState, runEtl]
    | some us =>
      cases rc with
      | none => simp [etlState, runEtl]
      | some rs =>
        by_cases h : (ms.map Movie.id).Nodup ∧ (us.map User.id).Nodup
        · simp [etlState, runEtl, h, load_dw, copyAll, truncateAll]
        · simp [etlState, runEtl, h]

/-- C4: if any input CSV file of the raw zone is missing or unreadable, the
ETL run aborts as a fatal error and the prior contents of `dw.movies`,
`dw.users` and `dw.ratings` are left unchanged. -/
theorem C4_missing_input_aborts (raw : RawZone) (pg : PgState)
    (h : raw.movies_csv = none ∨ raw.users_csv = none ∨ raw.ratings_csv = none) :
    runEtl raw pg = .error .missingFile ∧ etlState raw pg = pg := by
  rcases raw with ⟨mc, uc, rc⟩
  simp only at h
  have hrun : runEtl ⟨mc, uc, rc⟩ pg = Except.error EtlErr.missingFile := by
    cases mc <;> cases uc <;> cases rc <;> simp_all [runEtl]
  exact ⟨hrun, by simp [etlState, hrun]⟩

/-- Witness for C4: with the ratings file missing, the run fails with the
missing-file error and a nonempty prior warehouse is left unchanged. -/
theorem C4_missing_input_aborts_witness :
    runEtl rawMissingRatings pgPrior = .error .missingFile ∧
    etlState rawMissingRatings pgPrior = pgPrior :=
  C4_missing_input_aborts rawMissingRatings pgPrior (Or.inr (Or.inr rfl))

/-- C7: on the input where two users in age bracket "18-25" rate 8 and 6 and
one user in bracket "26-35" rates 10, `mart.avg_rating_by_age` is exactly
[("26-35", 10.0, 1), ("18-25", 7.0, 2)], ordered by average rating
descending. -/
theorem C7_avg_by_age_example :
    avg_rating_by_age dwSeven =
      [{ age_range := "26-35", avg_rating := 10, n_ratings := 1 },
       { age_range := "18-25", avg_rating := 7, n_ratings := 2 }] := by
  simp [avg_rating_by_age, ageJoin, groupAgg, dedupKeys, sortBy, insertSorted, ageLt, dwSeven]
  norm_num

/-- C5: inner-join semantics of the three mart views: every result row comes
from at least one rating. A (genre, title) row of `top10_by_genre` has a
positive count and a movie of that genre and title with at least one rating;
an age bracket row of `avg_rating_by_age` has a user in that bracket with at
least one rating; a country row of `ratings_by_country` has a user from that
country with at least one rating. -/
theorem C5_inner_join_semantics (dw : DW) :
    (∀ row ∈ top10_by_genre dw, 0 < row.n_ratings ∧
      ∃ m ∈ dw.movies, m.genre = row.genre ∧ m.title = row.title ∧
        ∃ r ∈ dw.ratings, r.movie_id = m.id) ∧
    (∀ row ∈ avg_rating_by_age dw, 0 < row.n_ratings ∧
      ∃ u ∈ dw.users, u.age_range = row.age_range ∧
        ∃ r ∈ dw.ratings, r.user_id = u.id) ∧
    (∀ row ∈ ratings_by_country dw, 0 < row.n_ratings ∧
      ∃ u ∈ dw.users, u.country = row.country ∧
        ∃ r ∈ dw.ratings, r.user_id = u.id) := by
  refine ⟨?_, ?_, ?_⟩
  · intro row hrow
    have h1 : row ∈ top_by_genre_all dw := List.mem_of_mem_take hrow
    have h2 := mem_of_mem_sortBy h1
    rcases List.mem_map.mp h2 with ⟨g, hg, rfl⟩
    rcases groupAgg_mem hg with ⟨hpos, v, hv⟩
    rcases genreJoin_mem hv with ⟨m, hm, hgen, htit, r, hr, hrm⟩
    exact ⟨hpos, m, hm, hgen, htit, r, hr, hrm⟩
  · intro row hrow
    have h2 := mem_of_mem_sortBy hrow
    rcases List.mem_map.mp h2 with ⟨g, hg, rfl⟩
    rcases groupAgg_mem hg with ⟨hpos, v, hv⟩
    rcases ageJoin_mem hv with ⟨u, hu, hage, r, hr, hru⟩
    exact ⟨hpos, u, hu, hage, r, hr, hru⟩
  · intro row hrow
    have h2 := mem_of_mem_sortBy hrow
    rcases List.mem_map.mp h2 with ⟨g, hg, rfl⟩
    rcases groupAgg_mem hg with ⟨hpos, v, hv⟩
    rcases countryJoin_mem hv with ⟨u, hu, hc, r, hr, hru⟩
    exact ⟨hpos, u, hu, hc, r, hr, hru⟩

/-- Witness for C5 at the one-rating warehouse `dwOne` and its single
`top10_by_genre` row. -/
theorem C5_inner_join_semantics_witness :
    0 < rowOne.n_ratings ∧
    ∃ m ∈ dwOne.movies, m.genre = rowOne.genre ∧ m.title = rowOne.title ∧
      ∃ r ∈ dwOne.ratings, r.movie_id = m.id :=
  (C5_inner_join_semantics dwOne).1 rowOne (by
    simp [top10_by_genre, genreJoin, groupAgg, dedupKeys, sortBy, insertSorted,
      dwOne, rowOne])

/-- C3 counterexample: the warehouse table has no 0-10 constraint, so a
ratings CSV row with value 99 (which fits `numeric(3,1)`) is present in
`dw.ratings` after the run, violating the claimed range invariant. -/
theorem C3_range_counterexample :
    ¬ ∀ r ∈ (etlState rawOutOfRange initialPg).dw.ratings,
        0 ≤ r.rating ∧ r.rating ≤ 10 := by
  intro hall
  have h := hall { user_id := 1, movie_id := 1, rating := 99, created_at := 0 }
    (by simp [etlState, runEtl, rawOutOfRange, initialPg, load_dw, copyAll, truncateAll])
  norm_num at h

/-- C3 amended: the warehouse load applies no range filter: after a
successful ETL run `dw.ratings` is exactly the parsed ratings CSV, so values
outside 0-10 can be present in the warehouse; the 0-10 range check exists only
as the `app_ratings` check constraint, where an out-of-range insert fails and
leaves the application state unchanged. -/
theorem C3_range_check_only_app_level (ms : List Movie) (us : List User)
    (rs : List Rating) (pg : PgState)
    (hm : (ms.map Movie.id).Nodup) (hu : (us.map User.id).Nodup) :
    (etlState { movies_csv := some ms, users_csv := some us, ratings_csv := some rs } pg).dw.ratings = rs ∧
    ∀ (db : AppDb) (b : RatingBody) (q : ℚ), b.rating = some q →
      ¬ (0 ≤ q ∧ q ≤ 10) → (postRating b db).2 = db := by
  constructor
  · simp [etlState, runEtl, hm, hu, load_dw, copyAll, truncateAll]
  · intro db b q hq hrange
    rcases b with ⟨mid?, r?⟩
    simp only at hq
    subst hq
    cases mid? with
    | none => rfl
    | some mid =>
      by_cases h0 : mid = 0
      · simp [postRating, h0]
      · by_cases hex : (db.movies.any fun m => decide (m.id = mid)) = true
        · simp [postRating, h0, hex, hrange]
        · simp [postRating, h0, hex]

/-- Witness for C3 amended: the out-of-range rating 99 passes through the
warehouse load verbatim, while the same value is rejected by the application
schema and inserts nothing. -/
theorem C3_range_check_only_app_level_witness :
    (etlState rawOutOfRange initialPg).dw.ratings =
      [{ user_id := 1, movie_id := 1, rating := 99, created_at := 0 }] ∧
    (postRating { movie_id := some 1, rating := some 99 } dbOne).2 = dbOne :=
  ⟨(C3_range_check_only_app_level [] []
      [{ user_id := 1, movie_id := 1, rating := 99, created_at := 0 }] initialPg
      (by simp) (by simp)).1,
   (C3_range_check_only_app_level [] []
      [{ user_id := 1, movie_id := 1, rating := 99, created_at := 0 }] initialPg
      (by simp) (by simp)).2 dbOne { movie_id := some 1, rating := some 99 } 99 rfl
      (by norm_num)⟩

/-- C6: CRUD error statuses: POST /movies without a `title` answers 400 and
inserts nothing; a well-formed POST /ratings whose `movie_id` matches no
existing movie answers 404 and inserts nothing; DELETE /movies/:id for an id
matching no existing movie answers 404 and deletes nothing. -/
theorem C6_crud_error_statuses :
    (∀ (db : AppDb) (b : MovieBody), b.title = none → postMovie b db = (400, db)) ∧
    (∀ (db : AppDb) (mid : Nat) (q : ℚ), mid ≠ 0 →
      (∀ m ∈ db.movies, m.id ≠ mid) →
      postRating { movie_id := some mid, rating := some q } db = (404, db)) ∧
    (∀ (db : AppDb) (i : Nat), (∀ m ∈ db.movies, m.id ≠ i) →
      deleteMovie i db = (404, db)) := by
  refine ⟨?_, ?_, ?_⟩
  · intro db b hb
    rcases b with ⟨t?, y?, g?⟩
    simp only at hb
    subst hb
    rfl
  · intro db mid q h0 hno
    have hany : (db.movies.any fun m => decide (m.id = mid)) = false := by
      simp only [List.any_eq_false, decide_eq_true_eq]
      exact hno
    simp [postRating, h0, hany]
  · intro db i hno
    have hany : (db.movies.any fun m => decide (m.id = i)) = false := by
      simp only [List.any_eq_false, decide_eq_true_eq]
      exact hno
    simp [deleteMovie, hany]

/-- Witness for C6 at the one-movie application state: a title-less POST, a
rating POST for absent movie 5, and a DELETE of absent movie 5. -/
theorem C6_crud_error_statuses_witness :
    postMovie { title := none, year := none, genre := none } dbOne = (400, dbOne) ∧
    postRating { movie_id := some 5, rating := some 8 } dbOne = (404, dbOne) ∧
    deleteMovie 5 dbOne = (404, dbOne) :=
  ⟨C6_crud_error_statuses.1 dbOne { title := none, year := none, genre := none } rfl,
   C6_crud_error_statuses.2.1 dbOne 5 8 (by decide) (by decide),
   C6_crud_error_statuses.2.2 dbOne 5 (by decide)⟩

/-- Helper: a flat map whose function always produces the empty list is
empty. -/
theorem flatMap_const_nil {α β : Type} (l : List α) :
    (l.flatMap fun _ => ([] : List β)) = [] := by
  induction l with
  | nil => rfl
  | cons a as ih => simp [ih]

/-- C8 counterexample: before any ETL run has ever executed (the initial
database state), the mart views do not exist, so all three insight endpoints
surface an undefined-relation error rather than an empty array. -/
theorem C8_before_etl_counterexample :
    getTop10 initialPg = .error .undefinedRelation ∧
    getAvgByAge initialPg = .error .undefinedRelation ∧
    getByCountry initialPg = .error .undefinedRelation ∧
    getTop10 initialPg ≠ .ok [] :=
  ⟨rfl, rfl, rfl, fun h => by simp [getTop10, initialPg] at h⟩

/-- C8 amended: while the mart views do not exist (before any ETL run) the
three insight reads fail with an undefined-relation error, not an empty
array; once an ETL run has created the views, a read after a run with an
empty ratings file answers the empty array, not an error. -/
theorem C8_error_before_etl_empty_after :
    (∀ pg : PgState, pg.martExists = false →
      getTop10 pg = .error .undefinedRelation ∧
      getAvgByAge pg = .error .undefinedRelation ∧
      getByCountry pg = .error .undefinedRelation) ∧
    (∀ (ms : List Movie) (us : List User) (pg : PgState),
      (ms.map Movie.id).Nodup → (us.map User.id).Nodup →
      getTop10 (etlState (rawWith ms us []) pg) = .ok [] ∧
      getAvgByAge (etlState (rawWith ms us []) pg) = .ok [] ∧
      getByCountry (etlState (rawWith ms us []) pg) = .ok []) := by
  constructor
  · intro pg h
    exact ⟨by simp [getTop10, h], by simp [getAvgByAge, h], by simp [getByCountry, h]⟩
  · intro ms us pg hm hu
    have hst : etlState (rawWith ms us []) pg =
        { dw := { movies := ms, users := us, ratings := [] }, martExists := true } := by
      simp [etlState, runEtl, rawWith, hm, hu, load_dw, copyAll, truncateAll]
    rw [hst]
    refine ⟨?_, ?_, ?_⟩
    · simp [getTop10, top10_by_genre, genreJoin, flatMap_const_nil, groupAgg,
        dedupKeys, sortBy]
    · simp [getAvgByAge, avg_rating_by_age, ageJoin, flatMap_const_nil, groupAgg,
        dedupKeys, sortBy]
    · simp [getByCountry, ratings_by_country, countryJoin, flatMap_const_nil, groupAgg,
        dedupKeys, sortBy]

/-- Witness for C8 amended: the initial state has no mart views and errors;
after an ETL run on empty CSVs every insight endpoint answers the empty
array. -/
theorem C8_error_before_etl_empty_after_witness :
    getTop10 initialPg = .error .undefinedRelation ∧
    getTop10 (etlState (rawWith [] [] []) initialPg) = .ok [] :=
  ⟨(C8_error_before_etl_empty_after.1 initialPg rfl).1,
   (C8_error_before_etl_empty_after.2 [] [] initialPg (by simp) (by simp)).1⟩

/-- Helper: referential integrity transfers to a state whose ratings all come
from the old state and whose movies cover every old movie id. -/
theorem refIntegrity_transfer {db db2 : AppDb} (h : RefIntegrity db)
    (hr : ∀ r ∈ db2.ratings, r ∈ db.ratings)
    (hm : ∀ m ∈ db.movies, ∃ m2 ∈ db2.movies, m2.id = m.id) :
    RefIntegrity db2 := by
  intro r hrr
  rcases h r (hr r hrr) with ⟨m, hm2, hid⟩
  rcases hm m hm2 with ⟨m2, hm3, hid2⟩
  exact ⟨m2, hm3, hid2.trans hid⟩

/-- C9: referential integrity of the application schema: assuming every
`app_ratings` row references an existing `app_movies` row, the invariant is
preserved by each CRUD operation, and a successful DELETE /movies/:id removes
(via the on-delete cascade) every `app_ratings` row whose `movie_id` equals
the deleted id, so no dangling rating ever remains. -/
theorem C9_referential_integrity (db : AppDb) (h : RefIntegrity db) :
    (∀ b, RefIntegrity (postMovie b db).2) ∧
    (∀ i b, RefIntegrity (putMovie i b db).2) ∧
    (∀ i, RefIntegrity (deleteMovie i db).2 ∧
      ∀ r ∈ (deleteMovie i db).2.ratings, r.movie_id ≠ i) ∧
    (∀ b, RefIntegrity (postRating b db).2) := by
  refine ⟨?_, ?_, ?_, ?_⟩
  · intro b
    rcases b with ⟨t?, y?, g?⟩
    cases t? with
    | none => exact h
    | some t =>
      by_cases ht : t = ""
      · have heq : (postMovie ⟨some t, y?, g?⟩ db).2 = db := by simp [postMovie, ht]
        rw [heq]
        exact h
      · refine refIntegrity_transfer h ?_ ?_
        · intro r hr
          simpa [postMovie, ht] using hr
        · intro m hm
          have hmv : (postMovie ⟨some t, y?, g?⟩ db).2.movies =
              db.movies ++ [{ id := db.nextMovieId, title := t, year := y?, genre := g? }] := by
            simp [postMovie, ht]
          exact ⟨m, by rw [hmv]; exact List.mem_append_left _ hm, rfl⟩
  · intro i b
    by_cases hex : (db.movies.any fun m => decide (m.id = i)) = true
    · refine refIntegrity_transfer h ?_ ?_
      · intro r hr
        have hrr : (putMovie i b db).2.ratings = db.ratings := by simp [putMovie, hex]
        rwa [hrr] at hr
      · intro m hm
        have hmv : (putMovie i b db).2.movies =
            db.movies.map fun m => if m.id = i then applyMovieUpdate b m else m := by
          simp [putMovie, hex]
        refine ⟨if m.id = i then applyMovieUpdate b m else m, ?_, ?_⟩
        · rw [hmv]
          exact List.mem_map_of_mem _ hm
        · by_cases hc : m.id = i <;> simp [hc, applyMovieUpdate]
    · have heq : (putMovie i b db).2 = db := by simp [putMovie, hex]
      rw [heq]
      exact h
  · intro i
    by_cases hex : (db.movies.any fun m => decide (m.id = i)) = true
    · have hrr : (deleteMovie i db).2.ratings =
          db.ratings.filter fun r => r.movie_id ≠ i := by simp [deleteMovie, hex]
      have hmv : (deleteMovie i db).2.movies =
          db.movies.filter fun m => m.id ≠ i := by simp [deleteMovie, hex]
      constructor
      · intro r hr
        rw [hrr] at hr
        have hr2 := List.mem_filter.mp hr
        have hrne : r.movie_id ≠ i := by simpa using hr2.2
        rcases h r hr2.1 with ⟨m, hm, hid⟩
        refine ⟨m, ?_, hid⟩
        rw [hmv]
        refine List.mem_filter.mpr ⟨hm, ?_⟩
        simp [hid, hrne]
      · intro r hr
        rw [hrr] at hr
        simpa using (List.mem_filter.mp hr).2
    · have heq : (deleteMovie i db).2 = db := by simp [deleteMovie, hex]
      constructor
      · rw [heq]
        exact h
      · intro r hr hcontra
        rw [heq] at hr
        rcases h r hr with ⟨m, hm, hid⟩
        exact hex (List.any_eq_true.mpr ⟨m, hm, by simp [hid, hcontra]⟩)
  · intro b
    rcases b with ⟨mid?, q?⟩
    cases mid? with
    | none => cases q? <;> exact h
    | some mid =>
      cases q? with
      | none => exact h
      | some q =>
        by_cases h0 : mid = 0
        · have heq : (postRating ⟨some mid, some q⟩ db).2 = db := by simp [postRating, h0]
          rw [heq]
          exact h
        · by_cases hex : (db.movies.any fun m => decide (m.id = mid)) = true
          · by_cases hq : 0 ≤ q ∧ q ≤ 10
            · intro r hr
              have hrr : (postRating ⟨some mid, some q⟩ db).2.ratings =
                  db.ratings ++ [{ id := db.nextRatingId, movie_id := mid, rating := q }] := by
                simp [postRating, h0, hex, hq]
              have hmm : (postRating ⟨some mid, some q⟩ db).2.movies = db.movies := by
                simp [postRating, h0, hex, hq]
              rw [hrr] at hr
              rw [hmm]
              rcases List.mem_append.mp hr with hr2 | hr2
              · exact h r hr2
              · simp only [List.mem_singleton] at hr2
                subst hr2
                rcases List.any_eq_true.mp hex with ⟨m, hm, hmid⟩
                exact ⟨m, hm, by simpa using hmid⟩
            · have heq : (postRating ⟨some mid, some q⟩ db).2 = db := by
                simp [postRating, h0, hex, hq]
              rw [heq]
              exact h
          · have heq : (postRating ⟨some mid, some q⟩ db).2 = db := by
              simp [postRating, h0, hex]
            rw [heq]
            exact h

/-- Witness for C9 at the one-movie, one-rating state: inserting a rating for
the existing movie keeps the invariant, and deleting movie 1 leaves no rating
with movie_id 1. -/
theorem C9_referential_integrity_witness :
    RefIntegrity (postRating { movie_id := some 1, rating := some 8 } dbOne).2 ∧
    ∀ r ∈ (deleteMovie 1 dbOne).2.ratings, r.movie_id ≠ 1 :=
  ⟨(C9_referential_integrity dbOne (by unfold RefIntegrity; decide)).2.2.2
      { movie_id := some 1, rating := some 8 },
   ((C9_referential_integrity dbOne (by unfold RefIntegrity; decide)).2.2.1 1).2⟩

/-- C10: PUT /movies/:id is a partial update with a frame property: for an
existing movie id the response is 200, the ratings table is untouched, the
movies table is mapped so that only rows with the given id change, every
other row is kept verbatim, and the updated row keeps its id while each field
absent or null in the body keeps its previous value (COALESCE) and each field
present is replaced. -/
theorem C10_put_partial_update (i : Nat) (b : MovieBody) (db : AppDb)
    (h : ∃ m ∈ db.movies, m.id = i) :
    (putMovie i b db).1 = 200 ∧
    (putMovie i b db).2.ratings = db.ratings ∧
    (putMovie i b db).2.movies =
      (db.movies.map fun m => if m.id = i then applyMovieUpdate b m else m) ∧
    (∀ m ∈ db.movies, m.id ≠ i → m ∈ (putMovie i b db).2.movies) ∧
    (∀ m : AppMovie, (applyMovieUpdate b m).id = m.id ∧
      (applyMovieUpdate b m).title = (match b.title with | some t => t | none => m.title) ∧
      (applyMovieUpdate b m).year = (match b.year with | some y => some y | none => m.year) ∧
      (applyMovieUpdate b m).genre = (match b.genre with | some g => some g | none => m.genre)) := by
  have hex : (db.movies.any fun m => decide (m.id = i)) = true := by
    rcases h with ⟨m, hm, hid⟩
    exact List.any_eq_true.mpr ⟨m, hm, by simp [hid]⟩
  refine ⟨by simp [putMovie, hex], by simp [putMovie, hex], by simp [putMovie, hex], ?_, ?_⟩
  · intro m hm hne
    have hmv : (putMovie i b db).2.movies =
        db.movies.map fun m => if m.id = i then applyMovieUpdate b m else m := by
      simp [putMovie, hex]
    rw [hmv]
    have hfix : (if m.id = i then applyMovieUpdate b m else m) = m := by simp [hne]
    exact hfix ▸ List.mem_map_of_mem _ hm
  · intro m
    rcases b with ⟨t?, y?, g?⟩
    cases t? <;> cases y? <;> cases g? <;> exact ⟨rfl, rfl, rfl, rfl⟩

/-- Witness for C10 at a two-movie state, updating movie 1 with only a new
title: the second movie row is kept verbatim. -/
theorem C10_put_partial_update_witness :
    (putMovie 1 { title := some "C", year := none, genre := none } dbTwo).1 = 200 ∧
    (putMovie 1 { title := some "C", year := none, genre := none } dbTwo).2.movies =
      (dbTwo.movies.map fun m => if m.id = 1 then
        applyMovieUpdate { title := some "C", year := none, genre := none } m else m) :=
  ⟨(C10_put_partial_update 1 { title := some "C", year := none, genre := none } dbTwo
      (by decide)).1,
   (C10_put_partial_update 1 { title := some "C", year := none, genre := none } dbTwo
      (by decide)).2.2.1⟩

end MovieFlix
